import Mathlib

/-!
Shallow embedding of the FleetCare repository
(`src/fleetcare/core/models.py`, `src/fleetcare/core/api.py`).

Dates and times are encoded as natural numbers (only their ordering and
equality matter to the code under verification).  Django's autoincrement
primary key is modelled by the `nextId` counter in `State`.  Database
tables are modelled as lists of records; foreign keys as numeric ids.
-/

namespace FleetCare

/-- `SlotStatus` text choices (models.py, lines 10-12). -/
inductive SlotStatus where
  | free
  | busy
deriving DecidableEq, Repr

/-- `AppointmentStatus` text choices (models.py, lines 16-19). -/
inductive AppointmentStatus where
  | active
  | cancelled_manager
  | cancelled_user
deriving DecidableEq, Repr

/-- `Automobile` model (models.py, lines 23-56). -/
structure Automobile where
  id : Nat
  plate_number : String
  make : String
  model : String
  last_service_mileage : Nat
  service_interval_km : Nat
  next_service_mileage : Nat
deriving DecidableEq, Repr

/-- `Automobile.recalc_next_service` (models.py, lines 47-50). -/
def Automobile.recalc_next_service (a : Automobile) : Automobile :=
  { a with next_service_mileage := a.last_service_mileage + a.service_interval_km }

/-- `Automobile.save` (models.py, lines 52-56): recompute the derived
mileage on every save, then persist. -/
def Automobile.save (a : Automobile) : Automobile :=
  a.recalc_next_service

/-- `Driver` model (models.py, lines 60-72).  `car_id` is the
one-to-one foreign key to `Automobile`; `chat_id` is optional. -/
structure Driver where
  id : Nat
  first_name : String
  last_name : String
  phone : String
  car_id : Nat
  chat_id : Option Int
deriving DecidableEq, Repr

/-- `Slot` model (models.py, lines 84-95). -/
structure Slot where
  id : Nat
  date : Nat
  time : Nat
  status : SlotStatus
deriving DecidableEq, Repr

/-- `Appointment` model (models.py, lines 102-117). -/
structure Appointment where
  id : Nat
  slot_id : Nat
  driver_id : Nat
  car_id : Nat
  status : AppointmentStatus
deriving DecidableEq, Repr

/-- `Notification` model (models.py, lines 172-180): the audit record
written by `send_bot_notification`. -/
structure NotificationRecord where
  driver_id : Nat
  text : String
deriving DecidableEq, Repr

/-- The persistent database state: one list per table plus the
autoincrement counter for appointment primary keys. -/
structure State where
  slots : List Slot
  drivers : List Driver
  cars : List Automobile
  appointments : List Appointment
  notifications : List NotificationRecord
  nextId : Nat
deriving DecidableEq, Repr

/-- `Slot.objects.get(pk=sid)`, modelled as a scan of the slot table. -/
def findSlot (slots : List Slot) (sid : Nat) : Option Slot :=
  slots.find? (fun s => s.id = sid)

/-- `Appointment.objects.get(pk=aid)`. -/
def findAppointment (apps : List Appointment) (aid : Nat) : Option Appointment :=
  apps.find? (fun a => a.id = aid)

/-- `Driver.objects.get(pk=did)`. -/
def findDriver (drivers : List Driver) (did : Nat) : Option Driver :=
  drivers.find? (fun d => d.id = did)

/-- `self.slot.save(update_fields=["status"])`: overwrite the status of
the row whose primary key is `sid`. -/
def setSlotStatus (slots : List Slot) (sid : Nat) (stat : SlotStatus) : List Slot :=
  slots.map (fun s => if s.id = sid then { s with status := stat } else s)

/-- Environment of the external Telegram delivery attempt in
`send_bot_notification` (models.py, lines 194-214): the optional
`TELEGRAM_BOT_TOKEN` and the behaviour of the HTTP call (`none` models a
raised exception / timeout, `some false` a non-200 response, `some true`
a 200 response). -/
structure DeliveryEnv where
  bot_token : Option String
  http_ok : Option Bool
deriving DecidableEq, Repr

/-- Outcome of the delivery attempt; every constructor corresponds to a
`print`-and-continue branch of the source, none is an error raised to
the caller. -/
inductive DeliveryOutcome where
  | noToken
  | noChatId
  | httpError
  | exceptionLogged
  | sent
deriving DecidableEq, Repr

/-- `send_bot_notification` (models.py, lines 187-214): first create the
`Notification` row, then attempt Telegram delivery; every delivery
failure is logged and swallowed. Returns the new notification table and
the (discarded by the caller) outcome. -/
def send_bot_notification (env : DeliveryEnv) (driver : Driver) (text : String)
    (log : List NotificationRecord) : List NotificationRecord × DeliveryOutcome :=
  let log := log ++ [⟨driver.id, text⟩]
  match env.bot_token with
  | none => (log, .noToken)
  | some _ =>
    match driver.chat_id with
    | none => (log, .noChatId)
    | some _ =>
      match env.http_ok with
      | none => (log, .exceptionLogged)
      | some false => (log, .httpError)
      | some true => (log, .sent)

/-- Text of the cancellation message
(models.py, line 167: f-string over the slot date and time). -/
def cancelMessage (d t : Nat) : String :=
  "Ваша запись на " ++ toString d ++ " " ++ toString t ++ " отменена"

/-- `Appointment.save` (models.py, lines 141-154) in its creating mode
(`self.id is None`): insert the row with a fresh primary key, then, if
the new record is ACTIVE and the slot is not already BUSY, flip the slot
to BUSY.  `prev` is `None` when creating, so the cancellation branch
(lines 156-168) never fires here. -/
def appointmentCreateSave (st : State) (slot_id driver_id car_id : Nat)
    (status : AppointmentStatus) : State × Appointment :=
  let ap : Appointment := ⟨st.nextId, slot_id, driver_id, car_id, status⟩
  let st1 : State :=
    { st with appointments := st.appointments ++ [ap], nextId := st.nextId + 1 }
  if status = AppointmentStatus.active then
    match findSlot st1.slots slot_id with
    | some s =>
      if s.status ≠ SlotStatus.busy then
        ({ st1 with slots := setSlotStatus st1.slots slot_id SlotStatus.busy }, ap)
      else (st1, ap)
    | none => (st1, ap)
  else (st1, ap)

/-- `Appointment.save` (models.py, lines 141-168) in its updating mode
(`self.id is not None`): re-fetch the previously persisted row (`prev`),
overwrite the row, and if the status changed to a CANCELLED_* value,
free the slot (if not already FREE) and send the bot notification.
Returns `none` when the row does not exist (Django raises
`DoesNotExist`).  The slot release and the notification are the two
side effects of the cancellation branch; the source performs them in
that order and we commit them together in the returned state. -/
def appointmentUpdateSave (env : DeliveryEnv) (st : State) (ap : Appointment) :
    Option State :=
  match findAppointment st.appointments ap.id with
  | none => none
  | some prev =>
    let st1 : State :=
      { st with appointments :=
          st.appointments.map (fun a => if a.id = ap.id then ap else a) }
    if prev.status ≠ ap.status ∧
        (ap.status = AppointmentStatus.cancelled_manager ∨
         ap.status = AppointmentStatus.cancelled_user) then
      match findSlot st1.slots ap.slot_id with
      | some s =>
        let slots :=
          if s.status ≠ SlotStatus.free then
            setSlotStatus st1.slots ap.slot_id SlotStatus.free
          else st1.slots
        let log :=
          match findDriver st1.drivers ap.driver_id with
          | some d => (send_bot_notification env d (cancelMessage s.date s.time)
              st1.notifications).1
          | none => st1.notifications
        some { st1 with slots := slots, notifications := log }
      | none => some st1
    else some st1

/-- Error kinds surfaced by the API layer (api.py): HTTP 404s from
object resolution and the two `ValidationError`s raised by
`Appointment.clean` (models.py, lines 127-139). -/
inductive ApiError where
  | notFound
  | vehicleDriverMismatch
  | slotUnavailable
deriving DecidableEq, Repr

/-- One appointment-creation request (driver, car and slot primary keys
as posted to `AppointmentViewSet` create). -/
structure CreateReq where
  driver_id : Nat
  car_id : Nat
  slot_id : Nat
deriving DecidableEq, Repr

/-- Validation phase of appointment creation: foreign-key resolution of
driver, car and slot followed by `Appointment.clean` (models.py, lines
127-139): reject when the car is not the driver's assigned car, reject a
new appointment whose slot is not FREE.  Reads only; no writes. -/
def validateCreate (st : State) (r : CreateReq) : Except ApiError Unit :=
  match findDriver st.drivers r.driver_id with
  | none => .error .notFound
  | some d =>
    match st.cars.find? (fun c => c.id = r.car_id) with
    | none => .error .notFound
    | some _ =>
      match findSlot st.slots r.slot_id with
      | none => .error .notFound
      | some s =>
        if d.car_id ≠ r.car_id then .error .vehicleDriverMismatch
        else if s.status ≠ SlotStatus.free then .error .slotUnavailable
        else .ok ()

/-- Appointment creation as exposed by `AppointmentViewSet`
(api.py, lines 77-84): validate, then run `Appointment.save` in creating
mode.  On a validation error nothing has been written, so the original
state is returned unchanged alongside the error. -/
def createAppointment (st : State) (driver_id car_id slot_id : Nat)
    (status : AppointmentStatus) : State × Except ApiError Appointment :=
  match validateCreate st ⟨driver_id, car_id, slot_id⟩ with
  | .error e => (st, .error e)
  | .ok _ =>
    let p := appointmentCreateSave st slot_id driver_id car_id status
    (p.1, .ok p.2)

/-- Cancellation as exposed by `AppointmentViewSet.cancel_user`
(api.py, lines 114-121) and by the manager's status update: resolve the
appointment, overwrite its status with the requested CANCELLED_* value
and run `Appointment.save` in updating mode.  Note the source performs
no check of the previous status. -/
def cancelAppointment (env : DeliveryEnv) (st : State) (ap_id : Nat)
    (newStatus : AppointmentStatus) : State × Except ApiError Unit :=
  match findAppointment st.appointments ap_id with
  | none => (st, .error .notFound)
  | some ap =>
    match appointmentUpdateSave env st { ap with status := newStatus } with
    | some st' => (st', .ok ())
    | none => (st, .error .notFound)

/-- Python `str.strip()` (api.py, line 28): drop leading and trailing
whitespace. -/
def strip (s : String) : String :=
  String.mk (((s.data.dropWhile Char.isWhitespace).reverse.dropWhile
    Char.isWhitespace).reverse)

/-- `re.sub(r"\D+", "", s)` (api.py, line 33): keep only the digits. -/
def digitsOf (s : String) : String :=
  String.mk (s.data.filter Char.isDigit)

/-- Result of the driver-by-phone endpoint. -/
inductive ByPhoneResult where
  | found (d : Driver)
  | notFound
  | phoneRequired
deriving DecidableEq, Repr

/-- The linear scan of `DriverViewSet.by_phone` (api.py, lines 36-40):
first driver whose digit-normalized phone equals the normalized query. -/
def scanByPhone (norm : String) : List Driver → ByPhoneResult
  | [] => .notFound
  | d :: rest =>
    if digitsOf d.phone = norm then .found d else scanByPhone norm rest

/-- `DriverViewSet.by_phone` (api.py, lines 26-40): strip the query,
reject an empty query, normalize to digits, scan linearly. -/
def by_phone (drivers : List Driver) (phone : String) : ByPhoneResult :=
  let phone := strip phone
  if phone = "" then .phoneRequired
  else scanByPhone (digitsOf phone) drivers

/-- Projection used by `active_by_phone` (api.py, lines 102-111). -/
structure AppointmentView where
  id : Nat
  date : Nat
  time : Nat
  car_plate : String
deriving DecidableEq, Repr

/-- Sort key of `order_by("slot__date", "slot__time")` for an
appointment (lexicographic on the referenced slot's date then time). -/
def slotKeyLE (st : State) (a b : Appointment) : Bool :=
  match findSlot st.slots a.slot_id, findSlot st.slots b.slot_id with
  | some sa, some sb =>
    decide (sa.date < sb.date ∨ (sa.date = sb.date ∧ sa.time ≤ sb.time))
  | _, _ => true

/-- Row of the response of `active_by_phone`. -/
def appointmentView (st : State) (a : Appointment) : AppointmentView :=
  let key : Nat × Nat :=
    match findSlot st.slots a.slot_id with
    | some s => (s.date, s.time)
    | none => (0, 0)
  let plate :=
    match st.cars.find? (fun c => c.id = a.car_id) with
    | some c => c.plate_number
    | none => ""
  ⟨a.id, key.1, key.2, plate⟩

/-- Errors of the two phone-based lookups. -/
inductive LookupError where
  | phoneRequired
  | notFound
deriving DecidableEq, Repr

/-- `AppointmentViewSet.active_by_phone` (api.py, lines 86-112): the
driver is resolved by `Driver.objects.get(phone=phone)` — an exact
string comparison with no digit normalization — then the driver's
ACTIVE appointments are listed sorted by slot date and time. -/
def active_by_phone (st : State) (phone : Option String) :
    Except LookupError (List AppointmentView) :=
  match phone with
  | none => .error .phoneRequired
  | some p =>
    match st.drivers.find? (fun d => d.phone = p) with
    | none => .error .notFound
    | some d =>
      let qs := st.appointments.filter
        (fun a => a.driver_id = d.id ∧ a.status = AppointmentStatus.active)
      .ok ((qs.insertionSort (fun a b => slotKeyLE st a b = true)).map
        (appointmentView st))

/-- `SlotViewSet.free_dates` (api.py, lines 58-73): the distinct dates
in `[today, today + days]` carrying at least one FREE slot, ascending
(`values_list("date").distinct().order_by("date")`). -/
def free_dates (slots : List Slot) (today days : Nat) : List Nat :=
  (((slots.filter (fun s =>
        s.status = SlotStatus.free ∧ today ≤ s.date ∧ s.date ≤ today + days)).map
      (fun s => s.date)).insertionSort (fun a b => a ≤ b)).dedup

/-- Number of ACTIVE appointments referencing slot `sid`. -/
def activeCount (apps : List Appointment) (sid : Nat) : Nat :=
  apps.countP (fun a => a.slot_id = sid ∧ a.status = AppointmentStatus.active)

/-- The central occupancy invariant of the spec: a slot is BUSY iff
exactly one ACTIVE appointment references it (and never more than
one ACTIVE appointment references any slot). -/
def SlotInvariant (st : State) : Prop :=
  ∀ s ∈ st.slots,
    (s.status = SlotStatus.busy ↔ activeCount st.appointments s.id = 1) ∧
      activeCount st.appointments s.id ≤ 1

/-- Structural well-formedness of the database, maintained by Django:
distinct slot primary keys, appointment primary keys below the
autoincrement counter and distinct, and appointment slot foreign keys
resolving to an existing slot row. -/
structure WF (st : State) : Prop where
  slot_ids_nodup : (st.slots.map (fun s => s.id)).Nodup
  app_ids_lt : ∀ a ∈ st.appointments, a.id < st.nextId
  app_ids_nodup : (st.appointments.map (fun a => a.id)).Nodup
  app_slot_exists : ∀ a ∈ st.appointments, ∃ s ∈ st.slots, s.id = a.slot_id

/-- States reachable through the operations named by the spec: an
initial calendar of FREE slots with no appointments, appointment
creation, and cancellation (user or manager) of an appointment that is
still ACTIVE. -/
inductive Reachable : State → Prop where
  | init (slots : List Slot) (drivers : List Driver) (cars : List Automobile)
      (hids : (slots.map (fun s => s.id)).Nodup)
      (hfree : ∀ s ∈ slots, s.status = SlotStatus.free) :
      Reachable ⟨slots, drivers, cars, [], [], 0⟩
  | create (st : State) (driver_id car_id slot_id : Nat)
      (status : AppointmentStatus) (st' : State) (ap : Appointment)
      (hst : Reachable st)
      (hok : createAppointment st driver_id car_id slot_id status = (st', .ok ap)) :
      Reachable st'
  | cancel (env : DeliveryEnv) (st : State) (ap_id : Nat)
      (c : AppointmentStatus) (st' : State) (ap : Appointment)
      (hst : Reachable st)
      (hap : findAppointment st.appointments ap_id = some ap)
      (hactive : ap.status = AppointmentStatus.active)
      (hc : c = AppointmentStatus.cancelled_user ∨
            c = AppointmentStatus.cancelled_manager)
      (hok : cancelAppointment env st ap_id c = (st', .ok ())) :
      Reachable st'

/-- Sequential (serialized) execution of a batch of creation requests,
each with status ACTIVE, threading the database state; returns the
final state and the per-request outcomes in order. -/
def runCreates (st : State) : List CreateReq → State × List (Except ApiError Appointment)
  | [] => (st, [])
  | r :: rs =>
    let p := createAppointment st r.driver_id r.car_id r.slot_id
      AppointmentStatus.active
    let out := runCreates p.1 rs
    (out.1, p.2 :: out.2)

/-- A request that passes every check of `validateCreate` other than
slot availability: it targets slot `sid`, its driver exists and is
assigned exactly the requested car, and the car row exists. -/
def validReq (st : State) (sid : Nat) (r : CreateReq) : Bool :=
  r.slot_id == sid &&
    (match findDriver st.drivers r.driver_id with
     | some d => d.car_id == r.car_id
     | none => false) &&
    (st.cars.find? (fun c => c.id = r.car_id)).isSome

/-- Shared-memory picture of two in-flight `CreateAppointment` calls:
the database plus, per call, the recorded result of its validation
phase and its final outcome. -/
structure RaceState where
  st : State
  chk1 : Option (Except ApiError Unit)
  chk2 : Option (Except ApiError Unit)
  res1 : Option Bool
  res2 : Option Bool
deriving Repr

/-- Scheduler labels: run the validation or the save phase of call 1
or call 2.  Each phase is exactly the corresponding half of
`createAppointment` and runs atomically against the shared state; the
source provides no transaction or lock spanning the two halves. -/
inductive RaceLabel where
  | val1
  | val2
  | com1
  | com2

/-- One scheduler step of the two racing calls. -/
def raceStep (r1 r2 : CreateReq) (rs : RaceState) : RaceLabel → RaceState
  | .val1 => { rs with chk1 := some (validateCreate rs.st r1) }
  | .val2 => { rs with chk2 := some (validateCreate rs.st r2) }
  | .com1 =>
    match rs.chk1 with
    | some (.ok _) =>
      { rs with
        st := (appointmentCreateSave rs.st r1.slot_id r1.driver_id r1.car_id
          AppointmentStatus.active).1,
        res1 := some true }
    | some (.error _) => { rs with res1 := some false }
    | none => rs
  | .com2 =>
    match rs.chk2 with
    | some (.ok _) =>
      { rs with
        st := (appointmentCreateSave rs.st r2.slot_id r2.driver_id r2.car_id
          AppointmentStatus.active).1,
        res2 := some true }
    | some (.error _) => { rs with res2 := some false }
    | none => rs

/-- Run a schedule of interleaved phases from an initial database. -/
def runRace (r1 r2 : CreateReq) (st : State) (labels : List RaceLabel) : RaceState :=
  labels.foldl (raceStep r1 r2) ⟨st, none, none, none, none⟩

/-! Concrete fixtures used by witnesses and counterexamples. -/

/-- Example car 1. -/
def carA : Automobile := ⟨1, "A111AA", "Lada", "Vesta", 45000, 10000, 55000⟩

/-- Example car 2. -/
def carB : Automobile := ⟨2, "B222BB", "Kia", "Rio", 30000, 10000, 40000⟩

/-- Example driver 1, assigned car 1, phone stored formatted, no chat id. -/
def drvA : Driver := ⟨1, "Ivan", "Petrov", "+7 (911) 123-45-67", 1, none⟩

/-- Example driver 2, assigned car 2, with a chat id. -/
def drvB : Driver := ⟨2, "Petr", "Ivanov", "+7 (922) 765-43-21", 2, some 42⟩

/-- Example slot, FREE. -/
def slotA : Slot := ⟨1, 20260101, 10, SlotStatus.free⟩

/-- Initial database for the C1 trace: one FREE slot, one driver. -/
def stC1 : State := ⟨[slotA], [drvA], [carA], [], [], 0⟩

/-- Step 1 of the C1 trace: driver 1 books slot 1 (appointment id 0). -/
def stC1a : State := (createAppointment stC1 1 1 1 AppointmentStatus.active).1

/-- Step 2: the manager cancels appointment 0; slot 1 is FREE again. -/
def stC1b : State :=
  (cancelAppointment ⟨none, none⟩ stC1a 0 AppointmentStatus.cancelled_manager).1

/-- Step 3: driver 1 books slot 1 again (appointment id 1, ACTIVE). -/
def stC1c : State := (createAppointment stC1b 1 1 1 AppointmentStatus.active).1

/-- Step 4: a second cancellation of the old appointment 0 — the code
accepts it, and frees slot 1 although appointment 1 is still ACTIVE. -/
def stC1d : State :=
  (cancelAppointment ⟨none, none⟩ stC1c 0 AppointmentStatus.cancelled_user).1

/-- Initial database for the C2 race: one FREE slot, two drivers. -/
def stC2 : State := ⟨[slotA], [drvA, drvB], [carA, carB], [], [], 0⟩

/-- Database with one already-cancelled appointment (id 0) on slot 1. -/
def stC3 : State :=
  ⟨[slotA], [drvA], [carA], [⟨0, 1, 1, 1, AppointmentStatus.cancelled_manager⟩], [], 1⟩

/-- Database with one ACTIVE appointment (id 0) of driver 2 on a BUSY
slot, used to exercise cancellation's notification side effect. -/
def stC5 : State :=
  ⟨[⟨1, 20260101, 10, SlotStatus.busy⟩], [drvB], [carB],
    [⟨0, 1, 2, 2, AppointmentStatus.active⟩], [], 1⟩

instance (st : State) : Decidable (SlotInvariant st) := by
  unfold SlotInvariant; exact inferInstance

/-! Basic facts about the table helpers. -/

lemma findSlot_id {l : List Slot} {sid : Nat} {s : Slot}
    (h : findSlot l sid = some s) : s.id = sid := by
  unfold findSlot at h
  simpa using List.find?_some h

lemma findSlot_mem {l : List Slot} {sid : Nat} {s : Slot}
    (h : findSlot l sid = some s) : s ∈ l :=
  List.mem_of_find?_eq_some h

lemma findAppointment_id {l : List Appointment} {aid : Nat} {a : Appointment}
    (h : findAppointment l aid = some a) : a.id = aid := by
  unfold findAppointment at h
  simpa using List.find?_some h

lemma findAppointment_mem {l : List Appointment} {aid : Nat} {a : Appointment}
    (h : findAppointment l aid = some a) : a ∈ l :=
  List.mem_of_find?_eq_some h

lemma findSlot_of_exists {l : List Slot} {sid : Nat}
    (h : ∃ s ∈ l, s.id = sid) : ∃ s, findSlot l sid = some s := by
  have hs : (List.find? (fun s => decide (s.id = sid)) l).isSome := by
    rw [List.find?_isSome]
    obtain ⟨s, hsl, hid⟩ := h
    exact ⟨s, hsl, by simpa using hid⟩
  obtain ⟨s, hfind⟩ := Option.isSome_iff_exists.mp hs
  exact ⟨s, hfind⟩

lemma setSlotStatus_map_id (l : List Slot) (sid : Nat) (stat : SlotStatus) :
    (setSlotStatus l sid stat).map (fun s => s.id) = l.map (fun s => s.id) := by
  unfold setSlotStatus
  rw [List.map_map]
  exact List.map_congr_left (fun s _ => by dsimp [Function.comp]; split <;> rfl)

lemma mem_setSlotStatus {l : List Slot} {sid : Nat} {stat : SlotStatus} {u : Slot} :
    u ∈ setSlotStatus l sid stat ↔
      ∃ s ∈ l, u = (if s.id = sid then { s with status := stat } else s) := by
  unfold setSlotStatus
  simp only [List.mem_map]
  exact ⟨fun ⟨s, hs, he⟩ => ⟨s, hs, he.symm⟩, fun ⟨s, hs, he⟩ => ⟨s, hs, he.symm⟩⟩

lemma findSlot_setSlotStatus_self {l : List Slot} {sid : Nat} {s : Slot}
    {stat : SlotStatus} (h : findSlot l sid = some s) :
    findSlot (setSlotStatus l sid stat) sid = some { s with status := stat } := by
  induction l with
  | nil => simp [findSlot] at h
  | cons a t ih =>
    by_cases ha : a.id = sid
    · have h' : findSlot (a :: t) sid = some a :=
        List.find?_cons_of_pos _ (by simpa using ha)
      rw [h'] at h
      injection h with h
      subst h
      show List.find? _ (List.map _ (a :: t)) = _
      rw [List.map_cons, if_pos ha]
      exact List.find?_cons_of_pos _ (by simpa using ha)
    · have h' : findSlot (a :: t) sid = findSlot t sid :=
        List.find?_cons_of_neg _ (by simpa using ha)
      rw [h'] at h
      show List.find? _ (List.map _ (a :: t)) = _
      rw [List.map_cons, if_neg ha]
      rw [List.find?_cons_of_neg _ (by simpa using ha)]
      exact ih h

lemma countP_concat (p : Appointment → Bool) (l : List Appointment) (a : Appointment) :
    (l ++ [a]).countP p = l.countP p + (if p a then 1 else 0) := by
  simp [List.countP_append, List.countP_cons]

lemma countP_replace (p : Appointment → Bool) (ap' : Appointment) :
    ∀ (l : List Appointment), (l.map (fun a => a.id)).Nodup →
      ∀ ap₀ ∈ l, ap₀.id = ap'.id →
      (l.map (fun a => if a.id = ap'.id then ap' else a)).countP p
          + (if p ap₀ then 1 else 0)
        = l.countP p + (if p ap' then 1 else 0) := by
  intro l
  induction l with
  | nil => intro _ ap₀ h; exact absurd h (List.not_mem_nil ap₀)
  | cons a t ih =>
    intro hnd ap₀ hmem hid
    rw [List.map_cons, List.nodup_cons] at hnd
    obtain ⟨hna, hndt⟩ := hnd
    rcases List.mem_cons.mp hmem with rfl | hmem'
    · have htail : t.map (fun b => if b.id = ap'.id then ap' else b) = t := by
        have hp : ∀ b ∈ t, (if b.id = ap'.id then ap' else b) = id b := by
          intro b hb
          rw [if_neg, id]
          intro hb'
          exact hna (List.mem_map.mpr ⟨b, hb, hb'.trans hid.symm⟩)
        rw [List.map_congr_left hp, List.map_id]
      simp only [List.map_cons, if_pos hid, htail, List.countP_cons]
      omega
    · have hane : ¬ a.id = ap'.id := by
        intro h'
        exact hna (List.mem_map.mpr ⟨ap₀, hmem', hid.trans h'.symm⟩)
      simp only [List.map_cons, if_neg hane, List.countP_cons]
      have := ih hndt ap₀ hmem' hid
      omega

lemma findAppointment_replace {ap' : Appointment} :
    ∀ {l : List Appointment} {ap₀ : Appointment},
      findAppointment l ap'.id = some ap₀ →
      findAppointment (l.map (fun a => if a.id = ap'.id then ap' else a)) ap'.id
        = some ap' := by
  intro l
  induction l with
  | nil => intro ap₀ h; simp [findAppointment] at h
  | cons a t ih =>
    intro ap₀ h
    by_cases ha : a.id = ap'.id
    · show List.find? _ (List.map _ (a :: t)) = _
      rw [List.map_cons, if_pos ha]
      exact List.find?_cons_of_pos _ (by simp)
    · have h' : findAppointment (a :: t) ap'.id = findAppointment t ap'.id :=
        List.find?_cons_of_neg _ (by simpa using ha)
      rw [h'] at h
      show List.find? _ (List.map _ (a :: t)) = _
      rw [List.map_cons, if_neg ha]
      rw [List.find?_cons_of_neg _ (by simpa using ha)]
      exact ih h

lemma replace_map_id (l : List Appointment) (ap' : Appointment) :
    (l.map (fun a => if a.id = ap'.id then ap' else a)).map (fun a => a.id)
      = l.map (fun a => a.id) := by
  rw [List.map_map]
  exact List.map_congr_left (fun a _ => by
    dsimp [Function.comp]
    split
    · next h => rw [h]
    · rfl)

lemma send_log (env : DeliveryEnv) (d : Driver) (text : String)
    (log : List NotificationRecord) :
    (send_bot_notification env d text log).1 = log ++ [⟨d.id, text⟩] := by
  unfold send_bot_notification
  rcases env.bot_token with _ | t
  · rfl
  · rcases d.chat_id with _ | cid
    · rfl
    · rcases env.http_ok with _ | b
      · rfl
      · cases b <;> rfl

/-! Characterizations of the appointment operations. -/

lemma validateCreate_ok {st : State} {r : CreateReq}
    (h : validateCreate st r = .ok ()) :
    ∃ s, findSlot st.slots r.slot_id = some s ∧ s.status = SlotStatus.free := by
  unfold validateCreate at h
  cases hd : findDriver st.drivers r.driver_id with
  | none => rw [hd] at h; simp at h
  | some d =>
    rw [hd] at h
    dsimp only at h
    cases hc : st.cars.find? (fun c => c.id = r.car_id) with
    | none => rw [hc] at h; simp at h
    | some c =>
      rw [hc] at h
      dsimp only at h
      cases hs : findSlot st.slots r.slot_id with
      | none => rw [hs] at h; simp at h
      | some s =>
        rw [hs] at h
        dsimp only at h
        by_cases h1 : d.car_id ≠ r.car_id
        · rw [if_pos h1] at h; simp at h
        · rw [if_neg h1] at h
          by_cases h2 : s.status ≠ SlotStatus.free
          · rw [if_pos h2] at h; simp at h
          · exact ⟨s, rfl, not_not.mp h2⟩

lemma createAppointment_ok {st : State} {did cid sid : Nat}
    {status : AppointmentStatus} {st' : State} {ap : Appointment}
    (h : createAppointment st did cid sid status = (st', .ok ap)) :
    ∃ s, findSlot st.slots sid = some s ∧ s.status = SlotStatus.free ∧
      ap = ⟨st.nextId, sid, did, cid, status⟩ ∧
      st'.appointments = st.appointments ++ [ap] ∧
      st'.nextId = st.nextId + 1 ∧
      st'.drivers = st.drivers ∧ st'.cars = st.cars ∧
      st'.notifications = st.notifications ∧
      st'.slots = (if status = AppointmentStatus.active
        then setSlotStatus st.slots sid SlotStatus.busy else st.slots) := by
  unfold createAppointment at h
  cases hv : validateCreate st ⟨did, cid, sid⟩ with
  | error e => rw [hv] at h; simp at h
  | ok u =>
    cases u
    rw [hv] at h
    obtain ⟨s, hs0, hfree⟩ := validateCreate_ok hv
    have hs : findSlot st.slots sid = some s := hs0
    unfold appointmentCreateSave at h
    dsimp only at h
    refine ⟨s, hs, hfree, ?_⟩
    by_cases hact : status = AppointmentStatus.active
    · rw [if_pos hact] at h
      rw [hs] at h
      dsimp only at h
      rw [if_pos (by rw [hfree]; exact fun hh => nomatch hh)] at h
      rw [Prod.mk.injEq] at h
      obtain ⟨h1, h2⟩ := h
      injection h2 with h2
      subst h2
      rw [← h1, if_pos hact]
      exact ⟨rfl, rfl, rfl, rfl, rfl, rfl, rfl⟩
    · rw [if_neg hact] at h
      rw [Prod.mk.injEq] at h
      obtain ⟨h1, h2⟩ := h
      injection h2 with h2
      subst h2
      rw [← h1, if_neg hact]
      exact ⟨rfl, rfl, rfl, rfl, rfl, rfl, rfl⟩

lemma createAppointment_error {st : State} {did cid sid : Nat}
    {status : AppointmentStatus} {st' : State} {e : ApiError}
    (h : createAppointment st did cid sid status = (st', .error e)) :
    st' = st ∧ validateCreate st ⟨did, cid, sid⟩ = .error e := by
  unfold createAppointment at h
  cases hv : validateCreate st ⟨did, cid, sid⟩ with
  | error e' =>
    rw [hv] at h
    rw [Prod.mk.injEq] at h
    obtain ⟨h1, h2⟩ := h
    injection h2 with h2
    exact ⟨h1.symm, by rw [h2]⟩
  | ok u => cases u; rw [hv] at h; simp at h

lemma createAppointment_busy (status : AppointmentStatus) {st : State}
    {did cid sid : Nat} {s : Slot} {d : Driver}
    (hd : findDriver st.drivers did = some d) (hcar : d.car_id = cid)
    (hcarex : (st.cars.find? (fun c => c.id = cid)).isSome = true)
    (hs : findSlot st.slots sid = some s)
    (hbusy : s.status = SlotStatus.busy) :
    createAppointment st did cid sid status = (st, .error .slotUnavailable) := by
  obtain ⟨c, hc⟩ := Option.isSome_iff_exists.mp hcarex
  unfold createAppointment validateCreate
  dsimp only
  rw [hd]
  dsimp only
  rw [hc]
  dsimp only
  rw [hs]
  dsimp only
  rw [if_neg (by rw [hcar]; exact fun hh => hh rfl)]
  rw [if_pos (by rw [hbusy]; exact fun hh => nomatch hh)]

lemma updateSave_appointments (env : DeliveryEnv) {st : State}
    (ap' : Appointment) {prev : Appointment}
    (hap : findAppointment st.appointments ap'.id = some prev) :
    ∃ st', appointmentUpdateSave env st ap' = some st' ∧
      st'.appointments
        = st.appointments.map (fun a => if a.id = ap'.id then ap' else a) ∧
      st'.drivers = st.drivers ∧ st'.cars = st.cars ∧ st'.nextId = st.nextId := by
  unfold appointmentUpdateSave
  rw [hap]
  dsimp only
  split
  · cases hfs : findSlot st.slots ap'.slot_id with
    | none => exact ⟨_, rfl, rfl, rfl, rfl, rfl⟩
    | some s =>
      cases hd : findDriver st.drivers ap'.driver_id with
      | none => exact ⟨_, rfl, rfl, rfl, rfl, rfl⟩
      | some d => exact ⟨_, rfl, rfl, rfl, rfl, rfl⟩
  · exact ⟨_, rfl, rfl, rfl, rfl, rfl⟩

lemma updateSave_same (env : DeliveryEnv) {st : State}
    (ap' : Appointment) {prev : Appointment}
    (hap : findAppointment st.appointments ap'.id = some prev)
    (hst : prev.status = ap'.status) :
    appointmentUpdateSave env st ap' =
      some { st with appointments :=
        st.appointments.map (fun a => if a.id = ap'.id then ap' else a) } := by
  unfold appointmentUpdateSave
  rw [hap]
  dsimp only
  rw [if_neg (fun hcond => hcond.1 hst)]

lemma updateSave_cancel (env : DeliveryEnv) {st : State}
    (ap' : Appointment) {prev : Appointment} {s : Slot}
    (hap : findAppointment st.appointments ap'.id = some prev)
    (hne : prev.status ≠ ap'.status)
    (hc : ap'.status = AppointmentStatus.cancelled_manager ∨
          ap'.status = AppointmentStatus.cancelled_user)
    (hs : findSlot st.slots ap'.slot_id = some s) :
    appointmentUpdateSave env st ap' = some
      { st with
        appointments :=
          st.appointments.map (fun a => if a.id = ap'.id then ap' else a),
        slots := (if s.status ≠ SlotStatus.free
          then setSlotStatus st.slots ap'.slot_id SlotStatus.free else st.slots),
        notifications := (match findDriver st.drivers ap'.driver_id with
          | some d => st.notifications ++ [⟨d.id, cancelMessage s.date s.time⟩]
          | none => st.notifications) } := by
  unfold appointmentUpdateSave
  rw [hap]
  dsimp only
  rw [if_pos ⟨hne, hc⟩]
  rw [hs]
  dsimp only
  cases hd : findDriver st.drivers ap'.driver_id with
  | none => rfl
  | some d => simp only [send_log]

/-! Preservation of the occupancy invariant. -/

lemma activeCount_concat (apps : List Appointment) (a : Appointment) (x : Nat) :
    activeCount (apps ++ [a]) x = activeCount apps x
      + (if a.slot_id = x ∧ a.status = AppointmentStatus.active then 1 else 0) := by
  unfold activeCount
  rw [countP_concat]
  congr 1
  by_cases hp : a.slot_id = x ∧ a.status = AppointmentStatus.active
  · rw [if_pos hp, if_pos (by simpa using hp)]
  · rw [if_neg hp, if_neg (by simpa using hp)]

lemma activeCount_pos_of_mem {apps : List Appointment} {a : Appointment}
    (ha : a ∈ apps) (hact : a.status = AppointmentStatus.active) :
    0 < activeCount apps a.slot_id := by
  unfold activeCount
  rw [List.countP_pos_iff]
  exact ⟨a, ha, by simp [hact]⟩

lemma exists_id_setSlotStatus {l : List Slot} {sid stat} (x : Nat)
    (h : ∃ u ∈ l, u.id = x) : ∃ u ∈ setSlotStatus l sid stat, u.id = x := by
  obtain ⟨u, hu, hid⟩ := h
  refine ⟨if u.id = sid then { u with status := stat } else u, ?_, ?_⟩
  · exact mem_setSlotStatus.mpr ⟨u, hu, rfl⟩
  · split <;> exact hid

lemma wf_inv_create {st st' : State} {did cid sid : Nat}
    {status : AppointmentStatus} {ap : Appointment}
    (hwf : WF st) (hinv : SlotInvariant st)
    (h : createAppointment st did cid sid status = (st', .ok ap)) :
    WF st' ∧ SlotInvariant st' := by
  obtain ⟨s, hs, hfree, hapv, happs, hnext, hdrv, hcars, hnot, hslots⟩ :=
    createAppointment_ok h
  have hsid : s.id = sid := findSlot_id hs
  have hsmem : s ∈ st.slots := findSlot_mem hs
  have hcnt : ∀ x, activeCount st'.appointments x = activeCount st.appointments x
      + (if sid = x ∧ status = AppointmentStatus.active then 1 else 0) := by
    intro x
    rw [happs, activeCount_concat, hapv]
  have hcount_s_zero : activeCount st.appointments s.id = 0 := by
    have h2 := hinv s hsmem
    rcases Nat.lt_or_ge (activeCount st.appointments s.id) 1 with hlt | hge
    · omega
    · exfalso
      have : activeCount st.appointments s.id = 1 := le_antisymm h2.2 hge
      have hb := h2.1.mpr this
      rw [hfree] at hb
      exact nomatch hb
  constructor
  · constructor
    · rw [hslots]
      split
      · rw [setSlotStatus_map_id]; exact hwf.slot_ids_nodup
      · exact hwf.slot_ids_nodup
    · intro a ha
      rw [happs] at ha
      rw [hnext]
      rcases List.mem_append.mp ha with h1 | h2
      · exact Nat.lt_succ_of_lt (hwf.app_ids_lt a h1)
      · rw [List.mem_singleton.mp h2, hapv]
        exact Nat.lt_succ_self _
    · rw [happs, List.map_append, List.nodup_append]
      refine ⟨hwf.app_ids_nodup, List.nodup_singleton _, ?_⟩
      intro x hx hx2
      obtain ⟨a', ha', hid⟩ := List.mem_map.mp hx
      have hlt := hwf.app_ids_lt a' ha'
      simp only [hapv, List.map_cons, List.map_nil, List.mem_singleton] at hx2
      omega
    · intro a ha
      rw [happs] at ha
      have htrans : ∀ y, (∃ u ∈ st.slots, u.id = y) → ∃ u ∈ st'.slots, u.id = y := by
        intro y hy
        rw [hslots]
        split
        · exact exists_id_setSlotStatus y hy
        · exact hy
      rcases List.mem_append.mp ha with h1 | h2
      · exact htrans _ (hwf.app_slot_exists a h1)
      · rw [List.mem_singleton.mp h2, hapv]
        exact htrans _ ⟨s, hsmem, hsid⟩
  · intro u hu
    rw [hslots] at hu
    by_cases hact : status = AppointmentStatus.active
    · rw [if_pos hact] at hu
      obtain ⟨t, ht, hut⟩ := mem_setSlotStatus.mp hu
      by_cases htid : t.id = sid
      · have hts : t = s :=
          List.inj_on_of_nodup_map hwf.slot_ids_nodup ht hsmem (htid.trans hsid.symm)
        subst hts
        rw [if_pos htid] at hut
        subst hut
        have hcu : activeCount st'.appointments t.id = 1 := by
          rw [hcnt t.id]
          rw [hcount_s_zero]
          rw [if_pos ⟨hsid.symm, hact⟩]
        constructor
        · constructor
          · intro _
            exact hcu
          · intro _
            rfl
        · exact le_of_eq hcu
      · rw [if_neg htid] at hut
        subst hut
        have hne2 : ¬ (sid = u.id ∧ status = AppointmentStatus.active) :=
          fun hp => htid hp.1.symm
        have hcu : activeCount st'.appointments u.id
            = activeCount st.appointments u.id := by
          rw [hcnt u.id, if_neg hne2]
          omega
        rw [hcu]
        exact hinv u ht
    · rw [if_neg hact] at hu
      have hne2 : ¬ (sid = u.id ∧ status = AppointmentStatus.active) :=
        fun hp => hact hp.2
      have hcu : activeCount st'.appointments u.id
          = activeCount st.appointments u.id := by
        rw [hcnt u.id, if_neg hne2]
        omega
      rw [hcu]
      exact hinv u hu

lemma cancelAppointment_cancel_spec (env : DeliveryEnv) {st : State} {ap_id : Nat}
    {ap : Appointment} {c : AppointmentStatus} {s : Slot}
    (hap : findAppointment st.appointments ap_id = some ap)
    (hne : ap.status ≠ c)
    (hc : c = AppointmentStatus.cancelled_manager ∨ c = AppointmentStatus.cancelled_user)
    (hs : findSlot st.slots ap.slot_id = some s) :
    cancelAppointment env st ap_id c = (
      { st with
        appointments := st.appointments.map
          (fun a => if a.id = ap_id then { ap with status := c } else a),
        slots := (if s.status ≠ SlotStatus.free
          then setSlotStatus st.slots ap.slot_id SlotStatus.free else st.slots),
        notifications := (match findDriver st.drivers ap.driver_id with
          | some d => st.notifications ++ [⟨d.id, cancelMessage s.date s.time⟩]
          | none => st.notifications) }, .ok ()) := by
  have hid : ap.id = ap_id := findAppointment_id hap
  have h1 : findAppointment st.appointments
      ({ ap with status := c } : Appointment).id = some ap := by
    dsimp only
    rw [hid]
    exact hap
  have h2 := updateSave_cancel env { ap with status := c } h1 hne hc hs
  unfold cancelAppointment
  rw [hap]
  dsimp only
  rw [h2]
  dsimp only
  rw [Prod.mk.injEq]
  refine ⟨?_, rfl⟩
  simp only [hid]
  try rfl

lemma wf_inv_cancel {env : DeliveryEnv} {st st' : State} {ap_id : Nat}
    {c : AppointmentStatus} {ap : Appointment}
    (hwf : WF st) (hinv : SlotInvariant st)
    (hap : findAppointment st.appointments ap_id = some ap)
    (hact : ap.status = AppointmentStatus.active)
    (hc : c = AppointmentStatus.cancelled_user ∨ c = AppointmentStatus.cancelled_manager)
    (h : cancelAppointment env st ap_id c = (st', .ok ())) :
    WF st' ∧ SlotInvariant st' := by
  have hmem := findAppointment_mem hap
  have hid := findAppointment_id hap
  obtain ⟨s, hs⟩ := findSlot_of_exists (hwf.app_slot_exists ap hmem)
  have hssid : s.id = ap.slot_id := findSlot_id hs
  have hsmem : s ∈ st.slots := findSlot_mem hs
  have hne : ap.status ≠ c := by
    rcases hc with rfl | rfl <;> rw [hact] <;> exact fun hh => nomatch hh
  have hcne : c ≠ AppointmentStatus.active := by
    rcases hc with rfl | rfl <;> exact fun hh => nomatch hh
  have hspec := cancelAppointment_cancel_spec env hap hne hc.symm hs
  rw [h, Prod.mk.injEq] at hspec
  have hst' := hspec.1
  have happs2 : st'.appointments = st.appointments.map
      (fun a => if a.id = ({ ap with status := c } : Appointment).id
        then { ap with status := c } else a) := by
    rw [hst']
    exact List.map_congr_left (fun a _ => by dsimp only; rw [hid])
  have hnext : st'.nextId = st.nextId := by rw [hst']
  have hpos : 0 < activeCount st.appointments ap.slot_id :=
    activeCount_pos_of_mem hmem hact
  have hcnt1 : activeCount st.appointments s.id = 1 := by
    have h2 := (hinv s hsmem).2
    rw [hssid] at h2 ⊢
    omega
  have hbusy : s.status = SlotStatus.busy := by
    apply (hinv s hsmem).1.mpr
    exact hcnt1
  have hslots : st'.slots = setSlotStatus st.slots ap.slot_id SlotStatus.free := by
    rw [hst']
    dsimp only
    rw [if_pos (by rw [hbusy]; exact fun hh => nomatch hh)]
  have hkey : ∀ x : Nat,
      activeCount st'.appointments x
          + (if ap.slot_id = x ∧ ap.status = AppointmentStatus.active then 1 else 0)
        = activeCount st.appointments x
          + (if ap.slot_id = x ∧ c = AppointmentStatus.active then 1 else 0) := by
    intro x
    have hr := countP_replace
      (fun a => decide (a.slot_id = x ∧ a.status = AppointmentStatus.active))
      ({ ap with status := c }) st.appointments hwf.app_ids_nodup ap hmem rfl
    simp only [decide_eq_true_eq] at hr
    unfold activeCount
    rw [happs2]
    exact hr
  have hzero : activeCount st'.appointments s.id = 0 := by
    have hk := hkey s.id
    rw [if_pos ⟨hssid.symm, hact⟩, if_neg (fun hp => hcne hp.2)] at hk
    omega
  have hsame : ∀ x, ¬ x = ap.slot_id →
      activeCount st'.appointments x = activeCount st.appointments x := by
    intro x hx
    have hk := hkey x
    rw [if_neg (fun hp => hx hp.1.symm), if_neg (fun hp => hx hp.1.symm)] at hk
    omega
  constructor
  · constructor
    · rw [hslots, setSlotStatus_map_id]
      exact hwf.slot_ids_nodup
    · intro a' ha'
      rw [happs2] at ha'
      rw [hnext]
      obtain ⟨a, ha, he⟩ := List.mem_map.mp ha'
      subst he
      split
      · exact hwf.app_ids_lt ap hmem
      · exact hwf.app_ids_lt a ha
    · rw [happs2, replace_map_id]
      exact hwf.app_ids_nodup
    · intro a' ha'
      rw [happs2] at ha'
      rw [hslots]
      obtain ⟨a, ha, he⟩ := List.mem_map.mp ha'
      subst he
      split
      · exact exists_id_setSlotStatus _ ⟨s, hsmem, hssid⟩
      · exact exists_id_setSlotStatus _ (hwf.app_slot_exists a ha)
  · intro u hu
    rw [hslots] at hu
    obtain ⟨t, ht, hut⟩ := mem_setSlotStatus.mp hu
    by_cases htid : t.id = ap.slot_id
    · have hts : t = s :=
        List.inj_on_of_nodup_map hwf.slot_ids_nodup ht hsmem (htid.trans hssid.symm)
      subst hts
      rw [if_pos htid] at hut
      subst hut
      constructor
      · constructor
        · intro hh
          exact absurd hh (by exact fun hh2 => nomatch hh2)
        · intro hh
          rw [hzero] at hh
          exact absurd hh (by omega)
      · rw [hzero]
        omega
    · rw [if_neg htid] at hut
      subst hut
      rw [hsame u.id htid]
      exact hinv u ht

lemma createAppointment_mismatch {st : State} {did cid sid : Nat}
    {status : AppointmentStatus} {d : Driver} {c : Automobile}
    (hd : findDriver st.drivers did = some d)
    (hc : st.cars.find? (fun x => x.id = cid) = some c)
    (hsome : ∃ s, findSlot st.slots sid = some s)
    (hmis : d.car_id ≠ cid) :
    createAppointment st did cid sid status = (st, .error .vehicleDriverMismatch) := by
  obtain ⟨s, hs⟩ := hsome
  unfold createAppointment validateCreate
  dsimp only
  rw [hd]
  dsimp only
  rw [hc]
  dsimp only
  rw [hs]
  dsimp only
  rw [if_pos hmis]

lemma validateCreate_free {st : State} {did cid sid : Nat}
    {s : Slot} {d : Driver}
    (hd : findDriver st.drivers did = some d) (hcar : d.car_id = cid)
    (hcarex : (st.cars.find? (fun x => x.id = cid)).isSome = true)
    (hs : findSlot st.slots sid = some s)
    (hfree : s.status = SlotStatus.free) :
    validateCreate st ⟨did, cid, sid⟩ = .ok () := by
  obtain ⟨c, hc⟩ := Option.isSome_iff_exists.mp hcarex
  unfold validateCreate
  dsimp only
  rw [hd]
  dsimp only
  rw [hc]
  dsimp only
  rw [hs]
  dsimp only
  rw [if_neg (by rw [hcar]; exact fun hh => hh rfl)]
  rw [if_neg (by rw [hfree]; exact fun hh => hh rfl)]

lemma appointmentCreateSave_snd (st : State) (slot_id driver_id car_id : Nat)
    (status : AppointmentStatus) :
    (appointmentCreateSave st slot_id driver_id car_id status).2
      = ⟨st.nextId, slot_id, driver_id, car_id, status⟩ := by
  unfold appointmentCreateSave
  dsimp only
  split
  · cases hfs : findSlot st.slots slot_id with
    | none => rfl
    | some s =>
      dsimp only
      split <;> rfl
  · rfl

lemma createAppointment_free_ok (status : AppointmentStatus) {st : State}
    {did cid sid : Nat} {s : Slot} {d : Driver}
    (hd : findDriver st.drivers did = some d) (hcar : d.car_id = cid)
    (hcarex : (st.cars.find? (fun x => x.id = cid)).isSome = true)
    (hs : findSlot st.slots sid = some s)
    (hfree : s.status = SlotStatus.free) :
    createAppointment st did cid sid status
      = ((appointmentCreateSave st sid did cid status).1,
         .ok ⟨st.nextId, sid, did, cid, status⟩) := by
  unfold createAppointment
  rw [validateCreate_free hd hcar hcarex hs hfree]
  dsimp only
  rw [appointmentCreateSave_snd]

lemma validReq_congr {st st' : State} {sid : Nat} (q : CreateReq)
    (hdrv : st'.drivers = st.drivers) (hcars : st'.cars = st.cars) :
    validReq st' sid q = validReq st sid q := by
  unfold validReq findDriver
  rw [hdrv, hcars]

lemma runCreates_busy {st : State} {sid : Nat} {s : Slot} (reqs : List CreateReq)
    (hs : findSlot st.slots sid = some s) (hbusy : s.status = SlotStatus.busy)
    (hv : ∀ r ∈ reqs, validReq st sid r = true) :
    runCreates st reqs = (st, reqs.map (fun _ => .error .slotUnavailable)) := by
  induction reqs with
  | nil => rfl
  | cons r rs ih =>
    have hvr := hv r (List.mem_cons_self r rs)
    unfold validReq at hvr
    rw [Bool.and_eq_true, Bool.and_eq_true] at hvr
    obtain ⟨⟨hslot, hdrvm⟩, hcarex⟩ := hvr
    have hslot' : r.slot_id = sid := by simpa using hslot
    cases hd : findDriver st.drivers r.driver_id with
    | none => rw [hd] at hdrvm; exact absurd hdrvm (by simp)
    | some d =>
      rw [hd] at hdrvm
      have hcar : d.car_id = r.car_id := by simpa using hdrvm
      have hbusye := createAppointment_busy AppointmentStatus.active
        hd hcar hcarex (hslot' ▸ hs) hbusy
      unfold runCreates
      rw [hbusye]
      dsimp only
      rw [ih (fun q hq => hv q (List.mem_cons_of_mem r hq))]
      rfl

lemma cancel_always_ok {env : DeliveryEnv} {st : State} {ap_id : Nat}
    {ap : Appointment} {c : AppointmentStatus}
    (hap : findAppointment st.appointments ap_id = some ap) :
    (cancelAppointment env st ap_id c).2 = .ok () ∧
    (cancelAppointment env st ap_id c).1.appointments
      = st.appointments.map
          (fun a => if a.id = ap_id then { ap with status := c } else a) := by
  have hid : ap.id = ap_id := findAppointment_id hap
  have h1 : findAppointment st.appointments
      ({ ap with status := c } : Appointment).id = some ap := by
    dsimp only
    rw [hid]
    exact hap
  obtain ⟨st', hsome, happs, _, _, _⟩ :=
    updateSave_appointments env { ap with status := c } h1
  unfold cancelAppointment
  rw [hap]
  dsimp only
  rw [hsome]
  dsimp only
  refine ⟨rfl, ?_⟩
  rw [happs]
  exact List.map_congr_left (fun a _ => by dsimp only; rw [hid])

lemma scanByPhone_notFound (norm : String) :
    ∀ drivers : List Driver, scanByPhone norm drivers = .notFound ↔
      ∀ d ∈ drivers, digitsOf d.phone ≠ norm := by
  intro drivers
  induction drivers with
  | nil => simp [scanByPhone]
  | cons d rest ih =>
    unfold scanByPhone
    by_cases hd : digitsOf d.phone = norm
    · rw [if_pos hd]
      constructor
      · intro hh
        exact absurd hh (by simp)
      · intro hh
        exact absurd hd (hh d (List.mem_cons_self d rest))
    · rw [if_neg hd]
      rw [ih]
      constructor
      · intro hh e he
        rcases List.mem_cons.mp he with rfl | he'
        · exact hd
        · exact hh e he'
      · intro hh e he
        exact hh e (List.mem_cons_of_mem d he)

lemma scanByPhone_found (norm : String) :
    ∀ (drivers : List Driver) (d : Driver),
      scanByPhone norm drivers = .found d →
      digitsOf d.phone = norm ∧
      ∃ l1 l2, drivers = l1 ++ d :: l2 ∧ ∀ e ∈ l1, digitsOf e.phone ≠ norm := by
  intro drivers
  induction drivers with
  | nil => intro d h; exact absurd h (by simp [scanByPhone])
  | cons a rest ih =>
    intro d h
    unfold scanByPhone at h
    by_cases ha : digitsOf a.phone = norm
    · rw [if_pos ha] at h
      injection h with h
      subst h
      exact ⟨ha, [], rest, rfl, fun e he => absurd he (List.not_mem_nil e)⟩
    · rw [if_neg ha] at h
      obtain ⟨hd, l1, l2, hsplit, hnone⟩ := ih d h
      refine ⟨hd, a :: l1, l2, by rw [hsplit]; rfl, ?_⟩
      intro e he
      rcases List.mem_cons.mp he with rfl | he'
      · exact ha
      · exact hnone e he'

lemma reachable_wf_inv {st : State} (h : Reachable st) :
    WF st ∧ SlotInvariant st := by
  induction h with
  | init slots drivers cars hids hfree =>
    constructor
    · refine ⟨hids, ?_, ?_, ?_⟩
      · intro a ha
        exact absurd ha (List.not_mem_nil a)
      · exact List.nodup_nil
      · intro a ha
        exact absurd ha (List.not_mem_nil a)
    · intro s hs
      constructor
      · rw [hfree s hs]
        constructor
        · intro hh
          exact absurd hh (fun hh2 => nomatch hh2)
        · intro hh
          exact absurd hh (by simp [activeCount])
      · simp [activeCount]
  | create st did cid sid status st' ap hst hok ih =>
    exact wf_inv_create ih.1 ih.2 hok
  | cancel env st ap_id c st' ap hst hap hactive hc hok ih =>
    exact wf_inv_cancel ih.1 ih.2 hap hactive hc hok

/-! Claim theorems. -/

/-- C1 (amended): the central occupancy invariant — a slot is BUSY iff
exactly one ACTIVE appointment references it — holds in every state
reachable through appointment creation and through cancellation of
appointments that are still ACTIVE.  (The unguarded re-cancellation of
an already-cancelled appointment, which the code also accepts, can
break it; see the counterexample.) -/
theorem c1_slot_invariant_guarded (st : State) (h : Reachable st) :
    SlotInvariant st :=
  (reachable_wf_inv h).2

/-- Witness for C1: a concrete reachable state — one driver booking the
single free slot — satisfies the invariant. -/
theorem c1_slot_invariant_guarded_witness : SlotInvariant stC1a :=
  c1_slot_invariant_guarded stC1a
    (Reachable.create stC1 1 1 1 AppointmentStatus.active stC1a
      ⟨0, 1, 1, 1, AppointmentStatus.active⟩
      (Reachable.init [slotA] [drvA] [carA] (by decide) (by decide))
      (by rfl))

/-- Counterexample for C1 as stated: the four-step trace book, cancel by
manager, re-book, cancel the stale appointment by user — each step an
operation named by the claim and each accepted by the code — ends in a
state where appointment 1 is ACTIVE on slot 1 while slot 1 is FREE, so
the invariant does not hold in every reachable state. -/
theorem c1_counterexample :
    (createAppointment stC1 1 1 1 AppointmentStatus.active).2
        = .ok ⟨0, 1, 1, 1, AppointmentStatus.active⟩ ∧
    (cancelAppointment ⟨none, none⟩ stC1a 0
        AppointmentStatus.cancelled_manager).2 = .ok () ∧
    (createAppointment stC1b 1 1 1 AppointmentStatus.active).2
        = .ok ⟨1, 1, 1, 1, AppointmentStatus.active⟩ ∧
    (cancelAppointment ⟨none, none⟩ stC1c 0
        AppointmentStatus.cancelled_user).2 = .ok () ∧
    findAppointment stC1d.appointments 1
        = some ⟨1, 1, 1, 1, AppointmentStatus.active⟩ ∧
    findSlot stC1d.slots 1 = some ⟨1, 20260101, 10, SlotStatus.free⟩ ∧
    ¬ SlotInvariant stC1d :=
  ⟨rfl, rfl, rfl, rfl, rfl, rfl, by decide⟩

/-- C2 (amended): when the N `CreateAppointment` calls against the same
FREE slot are serialized, exactly the first succeeds and every later
call fails with `SlotUnavailable`.  (The code has no atomic
check-and-set, so under interleaved execution this fails; see the race
counterexample.) -/
theorem c2_sequential_single_booking (st : State) (sid : Nat) (s : Slot)
    (r : CreateReq) (rs : List CreateReq)
    (hs : findSlot st.slots sid = some s)
    (hfree : s.status = SlotStatus.free)
    (hv : ∀ q ∈ r :: rs, validReq st sid q = true) :
    (runCreates st (r :: rs)).2
      = .ok ⟨st.nextId, r.slot_id, r.driver_id, r.car_id,
          AppointmentStatus.active⟩
        :: rs.map (fun _ => .error .slotUnavailable) := by
  have hvr := hv r (List.mem_cons_self r rs)
  unfold validReq at hvr
  rw [Bool.and_eq_true, Bool.and_eq_true] at hvr
  obtain ⟨⟨hslot, hdrvm⟩, hcarex⟩ := hvr
  have hslot' : r.slot_id = sid := by simpa using hslot
  subst hslot'
  cases hd : findDriver st.drivers r.driver_id with
  | none => rw [hd] at hdrvm; exact absurd hdrvm (by simp)
  | some d =>
    rw [hd] at hdrvm
    have hcar : d.car_id = r.car_id := by simpa using hdrvm
    have hok := createAppointment_free_ok AppointmentStatus.active
      hd hcar hcarex hs hfree
    have hfacts := createAppointment_ok hok
    obtain ⟨s2, hs2, hfree2, hapv, happs, hnext, hdrv2, hcars2, hnot2, hslots2⟩ :=
      hfacts
    have hsx : findSlot
        ((appointmentCreateSave st r.slot_id r.driver_id r.car_id
          AppointmentStatus.active).1).slots r.slot_id
        = some { s2 with status := SlotStatus.busy } := by
      rw [hslots2, if_pos rfl]
      exact findSlot_setSlotStatus_self hs2
    unfold runCreates
    rw [hok]
    dsimp only
    rw [runCreates_busy rs hsx rfl
      (fun q hq => by
        rw [validReq_congr q hdrv2 hcars2]
        exact hv q (List.mem_cons_of_mem r hq))]

/-- Witness for C2 (amended): two serialized requests for the single
free slot — the first succeeds, the second fails with
`SlotUnavailable`. -/
theorem c2_sequential_single_booking_witness :
    (runCreates stC2 [⟨1, 1, 1⟩, ⟨2, 2, 1⟩]).2
      = [.ok ⟨0, 1, 1, 1, AppointmentStatus.active⟩,
         .error .slotUnavailable] :=
  c2_sequential_single_booking stC2 1 slotA ⟨1, 1, 1⟩ [⟨2, 2, 1⟩]
    (by rfl) (by rfl) (by decide)

/-- Counterexample for C2 as stated: interleaving the validation and
save phases of two concurrent `CreateAppointment` calls against the same
FREE slot (both validate, then both save — the code spans the two phases
with no lock or conditional update) lets both succeed and leaves two
ACTIVE appointments referencing slot 1. -/
theorem c2_race_counterexample :
    (runRace ⟨1, 1, 1⟩ ⟨2, 2, 1⟩ stC2
        [.val1, .val2, .com1, .com2]).res1 = some true ∧
    (runRace ⟨1, 1, 1⟩ ⟨2, 2, 1⟩ stC2
        [.val1, .val2, .com1, .com2]).res2 = some true ∧
    activeCount (runRace ⟨1, 1, 1⟩ ⟨2, 2, 1⟩ stC2
        [.val1, .val2, .com1, .com2]).st.appointments 1 = 2 :=
  ⟨rfl, rfl, rfl⟩

/-- C3 (amended): a cancellation attempt on an appointment that is not
ACTIVE does not fail — the code defines no `AlreadyCancelled` error and
performs no status check: the save succeeds and simply stores the
requested CANCELLED_* status. -/
theorem c3_cancel_non_active_succeeds (env : DeliveryEnv) (st : State)
    (ap_id : Nat) (ap : Appointment) (c : AppointmentStatus)
    (hap : findAppointment st.appointments ap_id = some ap)
    (_hnact : ap.status ≠ AppointmentStatus.active) :
    (cancelAppointment env st ap_id c).2 = .ok () ∧
    (cancelAppointment env st ap_id c).1.appointments
      = st.appointments.map
          (fun a => if a.id = ap_id then { ap with status := c } else a) :=
  cancel_always_ok hap

/-- Witness for C3 (amended): cancelling the already manager-cancelled
appointment 0 succeeds and overwrites its terminal status. -/
theorem c3_cancel_non_active_succeeds_witness :
    (cancelAppointment ⟨none, none⟩ stC3 0
        AppointmentStatus.cancelled_user).2 = .ok () ∧
    (cancelAppointment ⟨none, none⟩ stC3 0
        AppointmentStatus.cancelled_user).1.appointments
      = stC3.appointments.map
          (fun a => if a.id = 0
            then { (⟨0, 1, 1, 1, AppointmentStatus.cancelled_manager⟩ :
                Appointment) with status := AppointmentStatus.cancelled_user }
            else a) :=
  c3_cancel_non_active_succeeds ⟨none, none⟩ stC3 0
    ⟨0, 1, 1, 1, AppointmentStatus.cancelled_manager⟩
    AppointmentStatus.cancelled_user (by rfl) (by decide)

/-- Counterexample for C3 as stated: user cancellation of the already
manager-cancelled appointment 0 returns success (no `AlreadyCancelled`
failure exists in the code) and transitions the record out of its
terminal state, CANCELLED_MANAGER to CANCELLED_USER. -/
theorem c3_counterexample :
    findAppointment stC3.appointments 0
        = some ⟨0, 1, 1, 1, AppointmentStatus.cancelled_manager⟩ ∧
    (cancelAppointment ⟨none, none⟩ stC3 0
        AppointmentStatus.cancelled_user).2 = .ok () ∧
    findAppointment (cancelAppointment ⟨none, none⟩ stC3 0
        AppointmentStatus.cancelled_user).1.appointments 0
      = some ⟨0, 1, 1, 1, AppointmentStatus.cancelled_user⟩ :=
  ⟨rfl, rfl, rfl⟩

/-- C4: an appointment-creation request whose car is not the driver
assigned car fails with `VehicleDriverMismatch` inside validation
(`Appointment.clean`), before `save` runs: the returned state is the
input state unchanged, so the targeted slot keeps its status. -/
theorem c4_vehicle_mismatch_rejected (st : State) (did cid sid : Nat)
    (status : AppointmentStatus) {d : Driver} {c : Automobile}
    (hd : findDriver st.drivers did = some d)
    (hc : st.cars.find? (fun x => x.id = cid) = some c)
    (hsome : ∃ s, findSlot st.slots sid = some s)
    (hmis : d.car_id ≠ cid) :
    createAppointment st did cid sid status
      = (st, .error .vehicleDriverMismatch) :=
  createAppointment_mismatch hd hc hsome hmis

/-- Witness for C4: driver 1 (assigned car 1) requesting car 2 on the
free slot 1 is rejected with `VehicleDriverMismatch`, and the state —
hence slot 1, still FREE — is unchanged. -/
theorem c4_vehicle_mismatch_rejected_witness :
    createAppointment stC2 1 2 1 AppointmentStatus.active
        = (stC2, .error .vehicleDriverMismatch) ∧
    findSlot stC2.slots 1 = some slotA ∧
    slotA.status = SlotStatus.free :=
  ⟨c4_vehicle_mismatch_rejected stC2 1 2 1 AppointmentStatus.active
      (by rfl) (by rfl) ⟨slotA, by rfl⟩ (by decide),
    rfl, rfl⟩

/-- C5: cancelling an ACTIVE appointment always succeeds, appends
exactly one `NotificationRecord` (written inside
`send_bot_notification` before any delivery attempt), and the resulting
slot and appointment tables are identical for every delivery
environment — missing bot token, missing chat id, non-200 response, or
a raised exception are all swallowed and never reach the caller. -/
theorem c5_cancel_notification_audit (st : State) (ap_id : Nat)
    (ap : Appointment) (c : AppointmentStatus) {s : Slot} {d : Driver}
    (hap : findAppointment st.appointments ap_id = some ap)
    (hact : ap.status = AppointmentStatus.active)
    (hc : c = AppointmentStatus.cancelled_user ∨
          c = AppointmentStatus.cancelled_manager)
    (hs : findSlot st.slots ap.slot_id = some s)
    (hd : findDriver st.drivers ap.driver_id = some d) :
    ∀ env : DeliveryEnv,
      (cancelAppointment env st ap_id c).2 = .ok () ∧
      (cancelAppointment env st ap_id c).1.notifications
        = st.notifications ++ [⟨d.id, cancelMessage s.date s.time⟩] ∧
      (cancelAppointment env st ap_id c).1.slots
        = (cancelAppointment ⟨none, none⟩ st ap_id c).1.slots ∧
      (cancelAppointment env st ap_id c).1.appointments
        = (cancelAppointment ⟨none, none⟩ st ap_id c).1.appointments := by
  intro env
  have hne : ap.status ≠ c := by
    rcases hc with rfl | rfl <;> rw [hact] <;> exact fun hh => nomatch hh
  have hs1 := cancelAppointment_cancel_spec env hap hne hc.symm hs
  have hs2 := cancelAppointment_cancel_spec ⟨none, none⟩ hap hne hc.symm hs
  rw [hs1, hs2]
  refine ⟨rfl, ?_, rfl, rfl⟩
  dsimp only
  rw [hd]

/-- Witness for C5: cancelling the ACTIVE appointment of driver 2 under
an environment whose HTTP call fails still returns success and appends
exactly the one audit record. -/
theorem c5_cancel_notification_audit_witness :
    (cancelAppointment ⟨some "tok", some false⟩ stC5 0
        AppointmentStatus.cancelled_manager).2 = .ok () ∧
    (cancelAppointment ⟨some "tok", some false⟩ stC5 0
        AppointmentStatus.cancelled_manager).1.notifications
      = stC5.notifications ++ [⟨2, cancelMessage 20260101 10⟩] ∧
    (cancelAppointment ⟨some "tok", some false⟩ stC5 0
        AppointmentStatus.cancelled_manager).1.slots
      = (cancelAppointment ⟨none, none⟩ stC5 0
          AppointmentStatus.cancelled_manager).1.slots ∧
    (cancelAppointment ⟨some "tok", some false⟩ stC5 0
        AppointmentStatus.cancelled_manager).1.appointments
      = (cancelAppointment ⟨none, none⟩ stC5 0
          AppointmentStatus.cancelled_manager).1.appointments :=
  c5_cancel_notification_audit stC5 0 ⟨0, 1, 2, 2, AppointmentStatus.active⟩
    AppointmentStatus.cancelled_manager (by rfl) (by rfl) (Or.inr rfl)
    (by rfl) (by rfl) ⟨some "tok", some false⟩

/-- C6: `Automobile.save` recomputes the derived next-service mileage as
last-service mileage plus interval on every save, so it can never be
stale: saving after changing the interval yields the new sum (for
last 45000 and interval 10000 the fixtures give 55000; changing the
interval to 8000 and saving gives 53000, by the second conjunct). -/
theorem c6_next_service_recomputed : ∀ a : Automobile,
    (Automobile.save a).next_service_mileage
      = a.last_service_mileage + a.service_interval_km ∧
    ∀ k : Nat,
      (Automobile.save
          { Automobile.save a with service_interval_km := k }
        ).next_service_mileage
        = a.last_service_mileage + k :=
  fun _ => ⟨rfl, fun _ => rfl⟩

/-- C7: the driver-by-phone lookup strips non-digits from the query and
from each stored phone, scans the driver list linearly and returns the
first driver whose normalized phone equals the normalized query; if no
stored phone matches after normalization it reports not found.
Duplicates after normalization are tolerated: the first match wins. -/
theorem c7_by_phone_first_normalized_match (drivers : List Driver)
    (phone : String) (hne : strip phone ≠ "") :
    (by_phone drivers phone = .notFound ↔
      ∀ d ∈ drivers, digitsOf d.phone ≠ digitsOf (strip phone)) ∧
    (∀ d, by_phone drivers phone = .found d →
      digitsOf d.phone = digitsOf (strip phone) ∧
      ∃ l1 l2, drivers = l1 ++ d :: l2 ∧
        ∀ e ∈ l1, digitsOf e.phone ≠ digitsOf (strip phone)) := by
  unfold by_phone
  dsimp only
  rw [if_neg hne]
  exact ⟨scanByPhone_notFound _ drivers,
    fun d h => scanByPhone_found _ drivers d h⟩

/-- Witness for C7: the formatted stored phone is found by its pure
digit query, stated via the two characterization conjuncts at the
concrete inputs. -/
theorem c7_by_phone_first_normalized_match_witness :
    (by_phone [drvB, drvA] "79111234567" = .notFound ↔
      ∀ d ∈ [drvB, drvA],
        digitsOf d.phone ≠ digitsOf (strip "79111234567")) ∧
    (∀ d, by_phone [drvB, drvA] "79111234567" = .found d →
      digitsOf d.phone = digitsOf (strip "79111234567") ∧
      ∃ l1 l2, [drvB, drvA] = l1 ++ d :: l2 ∧
        ∀ e ∈ l1,
          digitsOf e.phone ≠ digitsOf (strip "79111234567")) :=
  c7_by_phone_first_normalized_match [drvB, drvA] "79111234567" (by decide)

/-- C8: `free_dates` returns exactly the distinct dates within
`[today, today + days]` carrying at least one FREE slot — dates whose
slots are all BUSY are excluded — in strictly ascending order. -/
theorem c8_free_dates_characterization (slots : List Slot)
    (today days : Nat) :
    List.Sorted (fun x1 x2 => x1 < x2) (free_dates slots today days) ∧
    ∀ dd : Nat, dd ∈ free_dates slots today days ↔
      (today ≤ dd ∧ dd ≤ today + days ∧
        ∃ s ∈ slots, s.date = dd ∧ s.status = SlotStatus.free) := by
  constructor
  · have h1 : List.Sorted (fun x1 x2 => x1 ≤ x2)
        (((slots.filter (fun s => s.status = SlotStatus.free ∧
            today ≤ s.date ∧ s.date ≤ today + days)).map
          (fun s => s.date)).insertionSort (fun a b => a ≤ b)) :=
      List.sorted_insertionSort _ _
    have h2 := List.Pairwise.sublist (List.dedup_sublist _) h1
    exact List.Sorted.lt_of_le h2 (List.nodup_dedup _)
  · intro dd
    unfold free_dates
    rw [List.mem_dedup, (List.perm_insertionSort _ _).mem_iff, List.mem_map]
    constructor
    · rintro ⟨s, hs, rfl⟩
      rw [List.mem_filter] at hs
      obtain ⟨hmem, hp⟩ := hs
      rw [decide_eq_true_eq] at hp
      exact ⟨hp.2.1, hp.2.2, s, hmem, rfl, hp.1⟩
    · rintro ⟨h1, h2, s, hmem, hdate, hstat⟩
      refine ⟨s, List.mem_filter.mpr ⟨hmem, ?_⟩, hdate⟩
      rw [decide_eq_true_eq]
      rw [hdate]
      exact ⟨hstat, h1, h2⟩

/-- C9: re-saving an existing appointment whose stored status equals
the saved status — any status, ACTIVE included — only overwrites the
appointment row: the slot table and the notification log are unchanged;
slot release and notification happen only when the previously persisted
status differs from the new one. -/
theorem c9_resave_without_status_change_frame (env : DeliveryEnv)
    (st : State) (ap' : Appointment) {prev : Appointment}
    (hap : findAppointment st.appointments ap'.id = some prev)
    (hsame : prev.status = ap'.status) :
    appointmentUpdateSave env st ap'
      = some { st with appointments :=
          st.appointments.map (fun a => if a.id = ap'.id then ap' else a) } ∧
    (appointmentUpdateSave env st ap').map State.slots = some st.slots ∧
    (appointmentUpdateSave env st ap').map State.notifications
      = some st.notifications := by
  have h := updateSave_same env ap' hap hsame
  refine ⟨h, ?_, ?_⟩ <;> rw [h] <;> rfl

/-- Witness for C9: re-saving the ACTIVE appointment 0 unchanged leaves
the BUSY slot and the empty notification log untouched. -/
theorem c9_resave_without_status_change_frame_witness :
    appointmentUpdateSave ⟨none, none⟩ stC5
        ⟨0, 1, 2, 2, AppointmentStatus.active⟩
      = some { stC5 with appointments :=
          stC5.appointments.map (fun a =>
            if a.id = (⟨0, 1, 2, 2, AppointmentStatus.active⟩ :
                Appointment).id
            then ⟨0, 1, 2, 2, AppointmentStatus.active⟩ else a) } ∧
    (appointmentUpdateSave ⟨none, none⟩ stC5
        ⟨0, 1, 2, 2, AppointmentStatus.active⟩).map State.slots
      = some stC5.slots ∧
    (appointmentUpdateSave ⟨none, none⟩ stC5
        ⟨0, 1, 2, 2, AppointmentStatus.active⟩).map State.notifications
      = some stC5.notifications :=
  c9_resave_without_status_change_frame ⟨none, none⟩ stC5
    ⟨0, 1, 2, 2, AppointmentStatus.active⟩ (by rfl) (by rfl)

/-- C10: `active_by_phone` resolves the driver by exact string equality
on the stored phone — no digit normalization — so any query that is not
literally equal to a stored phone string yields the driver-not-found
error, even when its digits match a stored phone. -/
theorem c10_active_by_phone_exact_match (st : State) (p : String)
    (h : ∀ d ∈ st.drivers, d.phone ≠ p) :
    active_by_phone st (some p) = .error .notFound := by
  unfold active_by_phone
  dsimp only
  have hnone : st.drivers.find? (fun d => d.phone = p) = none :=
    List.find?_eq_none.mpr (fun d hd => by simpa using h d hd)
  rw [hnone]

/-- Witness for C10: the query is digit-equivalent to the stored
formatted phone of driver 1, yet the exact-equality lookup reports the
driver as not found. -/
theorem c10_active_by_phone_exact_match_witness :
    digitsOf "+7 (911) 123-45-67" = digitsOf "79111234567" ∧
    active_by_phone stC1 (some "79111234567") = .error .notFound :=
  ⟨by decide, c10_active_by_phone_exact_match stC1 "79111234567" (by decide)⟩

end FleetCare
